import Mathlib

/-!
Verification development for the `@basictech/expo` client SDK.

JavaScript strings are modelled as `List Char` (code units); byte strings as
`List Nat` with every entry below 256.  Stateful browser storage is modelled
as an association list, network calls as explicit oracles, and thrown
exceptions as `Option`/`Except` results.
-/

namespace BasicExpo

/-- Code-unit view of a string literal. -/
def lc (s : String) : List Char := s.toList

/-! ## Base64 (`btoa` / `atob`)

`storageAdapter` on the web platform obfuscates values with `btoa` before
writing to `localStorage` and restores them with `atob`; `decodeJWT` also runs
the JWT payload segment through `atob`.  We embed the WHATWG forgiving-base64
encoder/decoder on byte lists (ASCII-whitespace stripping, which none of our
inputs contain, is not modelled). -/

def b64Alphabet : List Char :=
  lc "ABCDEFGHIJKLMNOPQRSTUVWXYZabcdefghijklmnopqrstuvwxyz0123456789+/"

def padChar : Char := '='

def sextetToChar (n : Nat) : Char := b64Alphabet.getD n 'A'

def charToSextet (c : Char) : Option Nat :=
  let i := b64Alphabet.indexOf c
  if i < 64 then some i else none

/-- `btoa` on bytes: encode in 3-byte groups, padding the final group. -/
def btoaBytes : List Nat → List Char
  | [] => []
  | [a] => [sextetToChar (a / 4), sextetToChar (a % 4 * 16), padChar, padChar]
  | [a, b] => [sextetToChar (a / 4), sextetToChar (a % 4 * 16 + b / 16),
      sextetToChar (b % 16 * 4), padChar]
  | a :: b :: c :: rest =>
      sextetToChar (a / 4) :: sextetToChar (a % 4 * 16 + b / 16) ::
      sextetToChar (b % 16 * 4 + c / 64) :: sextetToChar (c % 64) :: btoaBytes rest

/-- Unpadded encoding, used only to reason about `btoaBytes`. -/
def btoaNoPad : List Nat → List Char
  | [] => []
  | [a] => [sextetToChar (a / 4), sextetToChar (a % 4 * 16)]
  | [a, b] => [sextetToChar (a / 4), sextetToChar (a % 4 * 16 + b / 16),
      sextetToChar (b % 16 * 4)]
  | a :: b :: c :: rest =>
      sextetToChar (a / 4) :: sextetToChar (a % 4 * 16 + b / 16) ::
      sextetToChar (b % 16 * 4 + c / 64) :: sextetToChar (c % 64) :: btoaNoPad rest

/-- Number of `=` pad characters `btoaBytes` appends. -/
def padLen : List Nat → Nat
  | [] => 0
  | [_] => 2
  | [_, _] => 1
  | _ :: _ :: _ :: rest => padLen rest

/-- Decode a pad-free base64 char list in 4-char groups with a forgiving
(2- or 3-char) final group. -/
def atobCore : List Char → Option (List Nat)
  | [] => some []
  | [c1, c2] => do
      let s1 ← charToSextet c1
      let s2 ← charToSextet c2
      some [s1 * 4 + s2 / 16]
  | [c1, c2, c3] => do
      let s1 ← charToSextet c1
      let s2 ← charToSextet c2
      let s3 ← charToSextet c3
      some [s1 * 4 + s2 / 16, s2 % 16 * 16 + s3 / 4]
  | c1 :: c2 :: c3 :: c4 :: rest => do
      let s1 ← charToSextet c1
      let s2 ← charToSextet c2
      let s3 ← charToSextet c3
      let s4 ← charToSextet c4
      let tail ← atobCore rest
      some ((s1 * 4 + s2 / 16) :: (s2 % 16 * 16 + s3 / 4) :: (s3 % 4 * 64 + s4) :: tail)
  | [_] => none

/-- Remove up to two trailing `=` pad characters. -/
def dropTrailingPads (l : List Char) : List Char :=
  match l.reverse with
  | p1 :: p2 :: rest =>
      if p1 = padChar then
        if p2 = padChar then rest.reverse else (p2 :: rest).reverse
      else l
  | [p1] => if p1 = padChar then [] else l
  | [] => []

/-- `atob` on chars, yielding the decoded bytes: strip the padding of a
4-aligned input, reject inputs of length `4k+1`, then decode. -/
def atobChars (l0 : List Char) : Option (List Nat) :=
  let l := if l0.length % 4 = 0 then dropTrailingPads l0 else l0
  if l.length % 4 = 1 then none else atobCore l

/-- `btoa` on a JS string: throws (here `none`) when a code unit exceeds 255. -/
def btoa (s : List Char) : Option (List Char) :=
  if s.all (fun c => c.toNat < 256) then some (btoaBytes (s.map Char.toNat)) else none

/-- `atob` on a JS string: the decoded bytes reappear as code units. -/
def atob (s : List Char) : Option (List Char) :=
  (atobChars s).map (fun bs => bs.map Char.ofNat)

/-! ## The web `storageAdapter`

`Platform.OS === 'web'` branch of `storageAdapter` in `src/index.tsx`
(the native branch delegates to the external `expo-secure-store`).
`localStorage` is an association list keyed by strings. -/

def Store : Type := List (List Char × List Char)

def storeGet : Store → List Char → Option (List Char)
  | [], _ => none
  | (k, v) :: rest, key => if k = key then some v else storeGet rest key

def storeRemove (s : Store) (key : List Char) : Store :=
  s.filter (fun e => e.1 ≠ key)

def storeSet (s : Store) (key v : List Char) : Store :=
  (key, v) :: storeRemove s key

/-- `storageAdapter.setItem` (web): store `btoa(value)`; if `btoa` throws the
error is caught and nothing is written. -/
def setItemWeb (s : Store) (key value : List Char) : Store :=
  match btoa value with
  | some enc => storeSet s key enc
  | none => s

/-- `storageAdapter.getItem` (web): a missing entry — or a stored empty
string, since `!encryptedValue` also holds for `""` — yields `null`;
otherwise `atob` is applied, with a thrown decode error caught into `null`. -/
def getItemWeb (s : Store) (key : List Char) : Option (List Char) :=
  match storeGet s key with
  | none => none
  | some enc =>
      if enc = [] then none
      else match atob enc with
        | some v => some v
        | none => none

/-- `storageAdapter.deleteItem` (web). -/
def deleteItemWeb (s : Store) (key : List Char) : Store :=
  storeRemove s key


/-! ## Base64 round-trip lemmas -/

theorem b64Alphabet_length : b64Alphabet.length = 64 := by decide

theorem csx : ∀ n, n < 64 → charToSextet (sextetToChar n) = some n := by decide

theorem sextetToChar_ne_pad (n : Nat) : sextetToChar n ≠ padChar := by
  by_cases h : n < 64
  · revert h; revert n; decide
  · simp only [sextetToChar]
    rw [List.getD_eq_default]
    · decide
    · rw [b64Alphabet_length]; omega

theorem btoaBytes_eq_noPad (l : List Nat) :
    btoaBytes l = btoaNoPad l ++ List.replicate (padLen l) padChar := by
  induction l using btoaBytes.induct with
  | case1 => rfl
  | case2 a => rfl
  | case3 a b => rfl
  | case4 a b c rest ih => simp [btoaBytes, btoaNoPad, padLen, ih]

theorem padLen_le_two (l : List Nat) : padLen l ≤ 2 := by
  induction l using padLen.induct with
  | case1 => simp [padLen]
  | case2 a => simp [padLen]
  | case3 a b => simp [padLen]
  | case4 a b c rest ih => simpa [padLen] using ih

theorem btoaNoPad_ne_pad (l : List Nat) : ∀ c ∈ btoaNoPad l, c ≠ padChar := by
  induction l using btoaNoPad.induct with
  | case1 => simp [btoaNoPad]
  | case2 a => simp [btoaNoPad, sextetToChar_ne_pad]
  | case3 a b => simp [btoaNoPad, sextetToChar_ne_pad]
  | case4 a b c rest ih =>
      simp only [btoaNoPad, List.mem_cons]
      rintro x (rfl | rfl | rfl | rfl | hx)
      · exact sextetToChar_ne_pad _
      · exact sextetToChar_ne_pad _
      · exact sextetToChar_ne_pad _
      · exact sextetToChar_ne_pad _
      · exact ih x hx

theorem dropTrailingPads_append (s : List Char) (k : Nat) (hs : ∀ c ∈ s, c ≠ padChar)
    (hk : k ≤ 2) : dropTrailingPads (s ++ List.replicate k padChar) = s := by
  interval_cases k
  · rw [List.replicate_zero, List.append_nil]
    unfold dropTrailingPads
    rcases hrev : s.reverse with _ | ⟨p1, _ | ⟨p2, rest⟩⟩
    · have hs0 : s = [] := by simpa using congrArg List.reverse hrev
      simp [hs0]
    · have hp1 : p1 ∈ s := List.mem_reverse.mp (by rw [hrev]; simp)
      simp [hs p1 hp1]
    · have hp1 : p1 ∈ s := List.mem_reverse.mp (by rw [hrev]; simp)
      simp [hs p1 hp1]
  · unfold dropTrailingPads
    rw [show List.replicate 1 padChar = [padChar] from rfl, List.reverse_append]
    rcases hrev : s.reverse with _ | ⟨p2, rest⟩
    · have hs0 : s = [] := by simpa using congrArg List.reverse hrev
      simp [hs0]
    · have hp2 : p2 ∈ s := List.mem_reverse.mp (by rw [hrev]; simp)
      have hback : (p2 :: rest).reverse = s := by rw [← hrev, List.reverse_reverse]
      simp [hs p2 hp2, hback]
  · unfold dropTrailingPads
    rw [show List.replicate 2 padChar = [padChar, padChar] from rfl, List.reverse_append]
    simp [List.reverse_reverse]

theorem length_btoaBytes_mod (l : List Nat) : (btoaBytes l).length % 4 = 0 := by
  induction l using btoaBytes.induct with
  | case1 => simp [btoaBytes]
  | case2 a => simp [btoaBytes]
  | case3 a b => simp [btoaBytes]
  | case4 a b c rest ih =>
      simp only [btoaBytes, List.length_cons]
      omega

theorem length_btoaNoPad_mod (l : List Nat) : (btoaNoPad l).length % 4 ≠ 1 := by
  induction l using btoaNoPad.induct with
  | case1 => simp [btoaNoPad]
  | case2 a => simp [btoaNoPad]
  | case3 a b => simp [btoaNoPad]
  | case4 a b c rest ih =>
      simp only [btoaNoPad, List.length_cons]
      omega

theorem atobCore_btoaNoPad (l : List Nat) (h : ∀ x ∈ l, x < 256) :
    atobCore (btoaNoPad l) = some l := by
  induction l using btoaNoPad.induct with
  | case1 => rfl
  | case2 a =>
      have ha : a < 256 := h a (by simp)
      unfold btoaNoPad atobCore
      rw [csx (a / 4) (by omega), csx (a % 4 * 16) (by omega)]
      simp only [Option.bind_eq_bind, Option.some_bind, Option.some.injEq,
        List.cons.injEq, and_true]
      omega
  | case3 a b =>
      have ha : a < 256 := h a (by simp)
      have hb : b < 256 := h b (by simp)
      unfold btoaNoPad atobCore
      rw [csx (a / 4) (by omega), csx (a % 4 * 16 + b / 16) (by omega),
        csx (b % 16 * 4) (by omega)]
      simp only [Option.bind_eq_bind, Option.some_bind, Option.some.injEq,
        List.cons.injEq, and_true]
      constructor <;> omega
  | case4 a b c rest ih =>
      have ha : a < 256 := h a (by simp)
      have hb : b < 256 := h b (by simp)
      have hc : c < 256 := h c (by simp)
      have hrest : ∀ x ∈ rest, x < 256 := fun x hx => h x (by simp [hx])
      unfold btoaNoPad atobCore
      rw [csx (a / 4) (by omega), csx (a % 4 * 16 + b / 16) (by omega),
        csx (b % 16 * 4 + c / 64) (by omega), csx (c % 64) (by omega), ih hrest]
      simp only [Option.bind_eq_bind, Option.some_bind, Option.some.injEq,
        List.cons.injEq, and_true]
      refine ⟨by omega, by omega, by omega⟩

theorem atobChars_btoaBytes (l : List Nat) (h : ∀ x ∈ l, x < 256) :
    atobChars (btoaBytes l) = some l := by
  unfold atobChars
  rw [if_pos (length_btoaBytes_mod l)]
  rw [btoaBytes_eq_noPad, dropTrailingPads_append _ _ (btoaNoPad_ne_pad l) (padLen_le_two l)]
  rw [if_neg (length_btoaNoPad_mod l)]
  exact atobCore_btoaNoPad l h

theorem atob_btoaBytes_chars (s : List Char) (h : ∀ c ∈ s, c.toNat < 256) :
    atob (btoaBytes (s.map Char.toNat)) = some s := by
  unfold atob
  rw [atobChars_btoaBytes]
  · simp only [Option.map_some', List.map_map, Option.some.injEq]
    calc s.map (Char.ofNat ∘ Char.toNat) = s.map id := by
          apply List.map_congr_left
          intro c _
          simp [Char.ofNat_toNat]
        _ = s := List.map_id s
  · intro x hx
    rcases List.mem_map.mp hx with ⟨c, hc, rfl⟩
    exact h c hc

/-! ## Storage lemmas -/

theorem storeGet_storeSet_self (s : Store) (k v : List Char) :
    storeGet (storeSet s k v) k = some v := by
  simp [storeSet, storeGet]

theorem storeGet_storeRemove_self (s : Store) (k : List Char) :
    storeGet (storeRemove s k) k = none := by
  induction s with
  | nil => rfl
  | cons e rest ih =>
      by_cases h : e.1 = k
      · simpa [storeRemove, h] using ih
      · simpa [storeRemove, storeGet, h] using ih

theorem storeRemove_idem (s : Store) (k : List Char) :
    storeRemove (storeRemove s k) k = storeRemove s k := by
  simp [storeRemove, List.filter_filter]

theorem storeRemove_comm (s : Store) (k1 k2 : List Char) :
    storeRemove (storeRemove s k1) k2 = storeRemove (storeRemove s k2) k1 := by
  simp only [storeRemove, List.filter_filter]
  apply List.filter_congr
  intro e _
  simp [Bool.and_comm]

theorem btoaBytes_ne_nil (l : List Nat) (h : l ≠ []) : btoaBytes l ≠ [] := by
  match l with
  | [] => exact absurd rfl h
  | [a] => simp [btoaBytes]
  | [a, b] => simp [btoaBytes]
  | a :: b :: c :: rest => simp [btoaBytes]

theorem getItemWeb_setItemWeb_self (s : Store) (k v : List Char) (hne : v ≠ [])
    (hlatin : ∀ c ∈ v, c.toNat < 256) :
    getItemWeb (setItemWeb s k v) k = some v := by
  have hall : v.all (fun c => c.toNat < 256) = true := by
    simp only [List.all_eq_true, decide_eq_true_eq]
    exact hlatin
  have henc : v.map Char.toNat ≠ [] := by
    intro hmap
    exact hne (List.map_eq_nil_iff.mp hmap)
  have hget : storeGet (setItemWeb s k v) k = some (btoaBytes (v.map Char.toNat)) := by
    unfold setItemWeb btoa
    rw [if_pos hall]
    exact storeGet_storeSet_self _ _ _
  simp [getItemWeb, hget, btoaBytes_ne_nil _ henc, atob_btoaBytes_chars v hlatin]

theorem getItemWeb_deleteItemWeb_self (s : Store) (k : List Char) :
    getItemWeb (deleteItemWeb s k) k = none := by
  unfold getItemWeb deleteItemWeb
  rw [storeGet_storeRemove_self]

theorem getItemWeb_nil (k : List Char) : getItemWeb [] k = none := rfl

/-! ## JSON values

Dynamic JSON values as produced by `JSON.parse`.  Numbers are modelled as
integers: the tokens and schemas in this development carry only integral
numeric literals, and a fractional or exponent literal simply fails to parse
in this model. -/

inductive Json
  | null
  | bool (b : Bool)
  | num (n : Int)
  | str (s : List Char)
  | arr (elems : List Json)
  | obj (members : List (List Char × Json))

def isWsChar (c : Char) : Bool :=
  c = ' ' || c = '\t' || c = '\n' || c = '\r'

def skipWs : List Char → List Char
  | c :: rest => if isWsChar c then skipWs rest else c :: rest
  | [] => []

/-- Trim ASCII whitespace from both ends (JS `String.prototype.trim` on the
whitespace characters that occur here). -/
def trimChars (s : List Char) : List Char :=
  (skipWs (skipWs s).reverse).reverse

def hexVal (c : Char) : Option Nat :=
  if '0' ≤ c ∧ c ≤ '9' then some (c.toNat - 48)
  else if 'a' ≤ c ∧ c ≤ 'f' then some (c.toNat - 87)
  else if 'A' ≤ c ∧ c ≤ 'F' then some (c.toNat - 55)
  else none

/-- Body of a JSON string literal after the opening quote: returns the decoded
content and the remainder after the closing quote.  Lone surrogates from
`\uXXXX` escapes are collapsed by `Char.ofNat` and are outside this model. -/
def parseStringRest : List Char → Option (List Char × List Char)
  | [] => none
  | c :: rest =>
      if c = '"' then some ([], rest)
      else if c = '\\' then
        match rest with
        | [] => none
        | e :: rest2 =>
            if e = 'u' then
              match rest2 with
              | h1 :: h2 :: h3 :: h4 :: rest3 =>
                  match hexVal h1, hexVal h2, hexVal h3, hexVal h4 with
                  | some v1, some v2, some v3, some v4 =>
                      match parseStringRest rest3 with
                      | some (s, rem) =>
                          some (Char.ofNat (v1 * 4096 + v2 * 256 + v3 * 16 + v4) :: s, rem)
                      | none => none
                  | _, _, _, _ => none
              | _ => none
            else
              match
                (if e = '"' then some '"'
                 else if e = '\\' then some '\\'
                 else if e = '/' then some '/'
                 else if e = 'b' then some '\x08'
                 else if e = 'f' then some '\x0c'
                 else if e = 'n' then some '\n'
                 else if e = 'r' then some '\r'
                 else if e = 't' then some '\t'
                 else none) with
              | some d =>
                  match parseStringRest rest2 with
                  | some (s, rem) => some (d :: s, rem)
                  | none => none
              | none => none
      else if c.toNat < 32 then none
      else
        match parseStringRest rest with
        | some (s, rem) => some (c :: s, rem)
        | none => none

def isDigitChar (c : Char) : Bool := '0' ≤ c && c ≤ '9'

/-- Leading decimal digits and the remainder. -/
def spanDigits : List Char → (List Char × List Char)
  | [] => ([], [])
  | c :: rest =>
      if isDigitChar c then
        let (ds, rem) := spanDigits rest
        (c :: ds, rem)
      else ([], c :: rest)

def digitsToNat : List Char → Nat
  | [] => 0
  | ds => ds.foldl (fun acc c => acc * 10 + (c.toNat - 48)) 0

/-- A JSON natural-number literal (no leading zeros) and the remainder. -/
def parseNatNum (input : List Char) : Option (Nat × List Char) :=
  match spanDigits input with
  | ([], _) => none
  | (d :: ds, rem) =>
      if d = '0' ∧ ds ≠ [] then none
      else some (digitsToNat (d :: ds), rem)

mutual

/-- Fuel-indexed JSON value parsing (`JSON.parse` grammar over the values this
development needs). -/
def parseVal : Nat → List Char → Option (Json × List Char)
  | 0, _ => none
  | fuel + 1, input =>
      match skipWs input with
      | [] => none
      | c :: rest =>
          if c = '\x7b' then
            match skipWs rest with
            | '\x7d' :: rem => some (.obj [], rem)
            | other => match parseObjMembers fuel other with
              | some (ms, rem) => some (.obj ms, rem)
              | none => none
          else if c = '[' then
            match skipWs rest with
            | ']' :: rem => some (.arr [], rem)
            | other => match parseArrElems fuel other with
              | some (vs, rem) => some (.arr vs, rem)
              | none => none
          else if c = '"' then
            match parseStringRest rest with
            | some (s, rem) => some (.str s, rem)
            | none => none
          else if c = 't' then
            match rest with
            | 'r' :: 'u' :: 'e' :: rem => some (.bool true, rem)
            | _ => none
          else if c = 'f' then
            match rest with
            | 'a' :: 'l' :: 's' :: 'e' :: rem => some (.bool false, rem)
            | _ => none
          else if c = 'n' then
            match rest with
            | 'u' :: 'l' :: 'l' :: rem => some (.null, rem)
            | _ => none
          else if c = '-' then
            match parseNatNum rest with
            | some (n, rem) => some (.num (-(n : Int)), rem)
            | none => none
          else
            match parseNatNum (c :: rest) with
            | some (n, rem) => some (.num (n : Int), rem)
            | none => none

/-- One or more comma-separated array elements up to the closing bracket. -/
def parseArrElems : Nat → List Char → Option (List Json × List Char)
  | 0, _ => none
  | fuel + 1, input =>
      match parseVal fuel input with
      | none => none
      | some (v, rem) =>
          match skipWs rem with
          | ',' :: rem2 =>
              match parseArrElems fuel rem2 with
              | some (vs, rem3) => some (v :: vs, rem3)
              | none => none
          | ']' :: rem2 => some ([v], rem2)
          | _ => none

/-- One or more comma-separated object members up to the closing brace. -/
def parseObjMembers : Nat → List Char → Option (List (List Char × Json) × List Char)
  | 0, _ => none
  | fuel + 1, input =>
      match skipWs input with
      | '"' :: rest =>
          match parseStringRest rest with
          | none => none
          | some (key, rem) =>
              match skipWs rem with
              | ':' :: rem2 =>
                  match parseVal fuel rem2 with
                  | none => none
                  | some (v, rem3) =>
                      match skipWs rem3 with
                      | ',' :: rem4 =>
                          match parseObjMembers fuel rem4 with
                          | some (ms, rem5) => some ((key, v) :: ms, rem5)
                          | none => none
                      | '\x7d' :: rem4 => some ([(key, v)], rem4)
                      | _ => none
              | _ => none
      | _ => none

end

/-- `JSON.parse`: `none` models a thrown `SyntaxError`. -/
def parseJson (s : List Char) : Option Json :=
  match parseVal (2 * s.length + 2) s with
  | some (v, rem) => if skipWs rem = [] then some v else none
  | none => none

/-! ## JSON stringification (the fragments `JSON.stringify` is used on) -/

/-- Escape one character of a JSON string literal.  Control characters do not
occur in the values this development serializes. -/
def escapeJsonChar (c : Char) : List Char :=
  if c = '"' then ['\\', '"']
  else if c = '\\' then ['\\', '\\']
  else [c]

def quoteJson (s : List Char) : List Char :=
  '"' :: (s.map escapeJsonChar).flatten ++ ['"']

/-- `JSON.stringify({accessToken, refreshToken})` as built by `storeTokens`. -/
def stringifyPair (accessToken refreshToken : List Char) : List Char :=
  '\x7b' :: quoteJson (lc "accessToken") ++ ':' :: quoteJson accessToken ++
  ',' :: quoteJson (lc "refreshToken") ++ ':' :: quoteJson refreshToken ++ ['\x7d']

/-! ## Object member lookup and JS coercions -/

/-- Property access on a parsed object; `JSON.parse` keeps the last duplicate
key, so later members win. -/
def lookupMember : List (List Char × Json) → List Char → Option Json
  | [], _ => none
  | (k, v) :: rest, key =>
      match lookupMember rest key with
      | some r => some r
      | none => if k = key then some v else none

/-- `value.key`: `none` models `undefined` (also for non-object values). -/
def getProp (v : Json) (key : List Char) : Option Json :=
  match v with
  | .obj ms => lookupMember ms key
  | _ => none

/-- JS truthiness of a JSON value. -/
def jsTruthy : Json → Bool
  | .null => false
  | .bool b => b
  | .num n => n ≠ 0
  | .str s => s ≠ []
  | .arr _ => true
  | .obj _ => true

def parseAllDigits (ds : List Char) : Option Nat :=
  if ds ≠ [] ∧ ds.all isDigitChar then some (digitsToNat ds) else none

/-- JS numeric coercion of a JSON value; `none` models `NaN` (exotic coercions
such as non-integral strings or multi-element arrays collapse to `none`). -/
def jsToNumber : Json → Option Int
  | .null => some 0
  | .bool b => some (if b then 1 else 0)
  | .num n => some n
  | .str s =>
      match trimChars s with
      | [] => some 0
      | '-' :: ds => (parseAllDigits ds).map (fun n => -(n : Int))
      | '+' :: ds => (parseAllDigits ds).map (fun n => (n : Int))
      | ds => (parseAllDigits ds).map (fun n => (n : Int))
  | .arr _ => none
  | .obj _ => none

/-! ## JWT decoding (`decodeJWT` / `isTokenExpired` in `src/index.tsx`) -/

def isContByte (b : Nat) : Bool := 128 ≤ b && b < 192

/-- UTF-8 decoding of a byte list; `none` models the `URIError` thrown by
`decodeURIComponent` on a malformed percent-sequence.  (The JWT payload is
converted byte-by-byte to `%XX` escapes and then `decodeURIComponent`-ed,
which amounts to UTF-8-decoding the raw bytes.) -/
def utf8Decode : List Nat → Option (List Char)
  | [] => some []
  | b :: rest =>
      if b < 128 then
        match utf8Decode rest with
        | some cs => some (Char.ofNat b :: cs)
        | none => none
      else if 194 ≤ b ∧ b < 224 then
        match rest with
        | b2 :: rest2 =>
            if isContByte b2 then
              match utf8Decode rest2 with
              | some cs => some (Char.ofNat ((b - 192) * 64 + (b2 - 128)) :: cs)
              | none => none
            else none
        | [] => none
      else if 224 ≤ b ∧ b < 240 then
        match rest with
        | b2 :: b3 :: rest2 =>
            if isContByte b2 ∧ isContByte b3 then
              let cp := (b - 224) * 4096 + (b2 - 128) * 64 + (b3 - 128)
              if cp < 2048 then none
              else if 55296 ≤ cp ∧ cp < 57344 then none
              else
                match utf8Decode rest2 with
                | some cs => some (Char.ofNat cp :: cs)
                | none => none
            else none
        | _ => none
      else if 240 ≤ b ∧ b < 245 then
        match rest with
        | b2 :: b3 :: b4 :: rest2 =>
            if isContByte b2 ∧ isContByte b3 ∧ isContByte b4 then
              let cp := (b - 240) * 262144 + (b2 - 128) * 4096 + (b3 - 128) * 64 + (b4 - 128)
              if cp < 65536 ∨ 1114111 < cp then none
              else
                match utf8Decode rest2 with
                | some cs => some (Char.ofNat cp :: cs)
                | none => none
            else none
        | _ => none
      else none

/-- JS `token.split('.')`: every segment, including empty ones. -/
def splitOnDot : List Char → List (List Char)
  | [] => [[]]
  | c :: rest =>
      if c = '.' then [] :: splitOnDot rest
      else
        match splitOnDot rest with
        | seg :: segs => (c :: seg) :: segs
        | [] => [[c]]

/-- The base64url-to-base64 character replacement performed by `decodeJWT`. -/
def base64UrlToB64 (s : List Char) : List Char :=
  s.map (fun c => if c = '-' then '+' else if c = '_' then '/' else c)

/-- `decodeJWT`: split the token at dots, base64-decode segment 1, UTF-8
decode, `JSON.parse`; every thrown error is caught into `null` (`none`).
Accessing segment 1 of a token without a `.` yields `undefined`, whose
`.replace` throws — also `none`. -/
def decodeJWT (token : List Char) : Option Json :=
  match (splitOnDot token).get? 1 with
  | none => none
  | some seg =>
      match atobChars (base64UrlToB64 seg) with
      | none => none
      | some bytes =>
          match utf8Decode bytes with
          | none => none
          | some chars => parseJson chars

/-- `isTokenExpired`: `true` when the token cannot be decoded, the payload or
its `exp` claim is falsy, or `Date.now() >= exp * 1000 - 5 * 60 * 1000`.
A truthy non-numeric `exp` makes the comparison `NaN`-false, i.e. not
expired, exactly as in JS. -/
def isTokenExpired (now : Int) (token : List Char) : Bool :=
  match decodeJWT token with
  | none => true
  | some decoded =>
      if jsTruthy decoded = false then true
      else
        match getProp decoded (lc "exp") with
        | none => true
        | some e =>
            if jsTruthy e = false then true
            else
              match jsToNumber e with
              | none => false
              | some n => now ≥ n * 1000 - 5 * 60 * 1000

/-! ## Token lifecycle (`fetchToken` / `refreshAccessToken` / `signout`)

Network calls are oracles supplied as parameters; `Date.now()` is the `now`
parameter (in milliseconds).  The `refreshAccessTokenRef` indirection is
modelled in its steady state, i.e. with the ref already pointing at
`refreshAccessToken`. -/

def tokenStorageKey : List Char := lc "auth_tokens"

def userInfoStorageKey : List Char := lc "user_info"

def tokenEndpoint : List Char := lc "https://api.basic.tech/auth/token"

/-- The fields of the token-endpoint response consumed by the client. -/
structure TokenResponse where
  access_token : List Char
  refresh_token : List Char
deriving DecidableEq

inductive RefreshResult
  | ok (t : TokenResponse)
  | httpError (body : List Char)
  | netError

structure HttpRequest where
  url : List Char
  body : List (List Char × Json)

inductive JsErr
  | noTokensFound
  | jsonParseError
  | destructureNull
  | refreshFailed (body : List Char)
  | refreshNetError
  | exchangeFailed
  | userInfoFailed
deriving DecidableEq

/-- Result of one `fetchToken`/`refreshAccessToken` run: the value returned
or error thrown, the final persisted store, and the token-exchange HTTP
requests issued along the way. -/
structure FetchOutcome where
  result : Except JsErr (List Char)
  store : Store
  requests : List HttpRequest

/-- `storeTokens`: persist `JSON.stringify({accessToken, refreshToken})`. -/
def storeTokens (s : Store) (t : TokenResponse) : Store :=
  setItemWeb s tokenStorageKey (stringifyPair t.access_token t.refresh_token)

/-- The JSON body sent by `refreshAccessToken` (lines 244-248 of
`src/index.tsx`): the stored refresh token travels under the `code` key, and
`JSON.stringify` drops the key entirely when the value is `undefined`. -/
def refreshRequestBody (refreshToken : Option Json) (clientId : List Char) :
    List (List Char × Json) :=
  match refreshToken with
  | some v => [(lc "grant_type", Json.str (lc "refresh_token")),
      (lc "code", v), (lc "client_id", Json.str clientId)]
  | none => [(lc "grant_type", Json.str (lc "refresh_token")),
      (lc "client_id", Json.str clientId)]

/-- The token-endpoint oracle: what the network answers to a refresh
attempt carrying the given refresh-token value. -/
def RefreshOracle : Type := Option Json → RefreshResult

/-- `refreshAccessToken`: POST the exchange request; on 2xx persist the new
pair and return the new access token, otherwise rethrow. -/
def refreshAccessToken (net : RefreshOracle) (clientId : List Char)
    (refreshToken : Option Json) (s : Store) : FetchOutcome :=
  let req : HttpRequest := ⟨tokenEndpoint, refreshRequestBody refreshToken clientId⟩
  match net refreshToken with
  | .ok t => ⟨.ok t.access_token, storeTokens s t, [req]⟩
  | .httpError b => ⟨.error (.refreshFailed b), s, [req]⟩
  | .netError => ⟨.error .refreshNetError, s, [req]⟩

def isNullJson : Json → Bool
  | .null => true
  | _ => false

/-- `fetchToken` after its one storage read (`await storageAdapter.getItem`):
falsy blob → throw; `JSON.parse` failure → throw; destructuring `null` →
TypeError; unexpired string access token → return it with no network
activity; anything else → delegate to `refreshAccessToken`.  (A non-string
access token has no `.split`, so `decodeJWT` catches the TypeError and the
token counts as expired.) -/
def fetchTokenAfterRead (net : RefreshOracle) (clientId : List Char) (now : Int)
    (blobOpt : Option (List Char)) (s : Store) : FetchOutcome :=
  match blobOpt with
  | none => ⟨.error .noTokensFound, s, []⟩
  | some blob =>
      if blob = [] then ⟨.error .noTokensFound, s, []⟩
      else
        match parseJson blob with
        | none => ⟨.error .jsonParseError, s, []⟩
        | some parsed =>
            if isNullJson parsed then ⟨.error .destructureNull, s, []⟩
            else
              match getProp parsed (lc "accessToken") with
              | some (.str a) =>
                  if isTokenExpired now a = false then ⟨.ok a, s, []⟩
                  else refreshAccessToken net clientId (getProp parsed (lc "refreshToken")) s
              | _ => refreshAccessToken net clientId (getProp parsed (lc "refreshToken")) s

/-- `fetchToken` (`getValidToken` in the spec's vocabulary). -/
def fetchToken (net : RefreshOracle) (clientId : List Char) (now : Int)
    (s : Store) : FetchOutcome :=
  fetchTokenAfterRead net clientId now (getItemWeb s tokenStorageKey) s

/-! ## Auth state, `signout`, and the login flows -/

structure UserInfo where
  id : List Char
  email : List Char
  name : List Char
  username : List Char
deriving DecidableEq

structure AuthState where
  accessToken : Option (List Char)
  refreshToken : Option (List Char)
  user : Option UserInfo
  isSignedIn : Bool
deriving DecidableEq

def signedOutState : AuthState := ⟨none, none, none, false⟩

/-- `signout`: delete both persisted secrets and reset the auth state. -/
def signout (s : Store) : Store × AuthState :=
  (deleteItemWeb (deleteItemWeb s tokenStorageKey) userInfoStorageKey, signedOutState)

def stringifyUser (u : UserInfo) : List Char :=
  '\x7b' :: quoteJson (lc "id") ++ ':' :: quoteJson u.id ++
  ',' :: quoteJson (lc "email") ++ ':' :: quoteJson u.email ++
  ',' :: quoteJson (lc "name") ++ ':' :: quoteJson u.name ++
  ',' :: quoteJson (lc "username") ++ ':' :: quoteJson u.username ++ ['\x7d']

/-- `storeUserInfo`: persist the serialized user info. -/
def storeUserInfo (s : Store) (u : UserInfo) : Store :=
  setItemWeb s userInfoStorageKey (stringifyUser u)

inductive ExchangeResult
  | ok (t : TokenResponse)
  | httpError

inductive UserInfoResult
  | ok (u : UserInfo)
  | httpError

/-- Result of one login-path run: the final store, the auth state set by
`setAuthState` when it was called, and the error that escaped, if any. -/
structure LoginOutcome where
  store : Store
  authState : Option AuthState
  error : Option JsErr

/-- `handleLoginCode`: exchange the code, persist the token pair, then fetch
and persist the user info and set the auth state; a failed user-info fetch
throws *after* the token pair is already persisted. -/
def handleLoginCode (exchange : ExchangeResult) (uinfo : UserInfoResult)
    (s : Store) : LoginOutcome :=
  match exchange with
  | .httpError => ⟨s, none, some .exchangeFailed⟩
  | .ok t =>
      let s1 := storeTokens s t
      match uinfo with
      | .httpError => ⟨s1, none, some .userInfoFailed⟩
      | .ok u =>
          ⟨storeUserInfo s1 u, some ⟨some t.access_token, some t.refresh_token, some u, true⟩, none⟩

inductive PromptResult
  | success (code : List Char)
  | dismissed

/-- `login` on native: non-success prompt results are silently ignored;
a thrown error inside `handleLoginCode` triggers `signout()` and is
rethrown. -/
def loginNative (prompt : PromptResult) (exchange : ExchangeResult)
    (uinfo : UserInfoResult) (s : Store) : LoginOutcome :=
  match prompt with
  | .dismissed => ⟨s, none, none⟩
  | .success _ =>
      let o := handleLoginCode exchange uinfo s
      match o.error with
      | some e =>
          let cleared := signout o.store
          ⟨cleared.1, some cleared.2, some e⟩
      | none => o

/-- The guard of the web oauth-callback effect (lines 441-444 of
`src/index.tsx`): `code && state === storedState`, where a missing URL
parameter and a missing session entry are both `null` and `null === null`
holds. -/
def webStateMatches (code st stored : Option (List Char)) : Bool :=
  match code with
  | none => false
  | some c => if c = [] then false else decide (st = stored)

/-- The web oauth-callback effect: on a state match run `handleLoginCode`
with no surrounding catch; otherwise do nothing at all. -/
def webOauthCallback (code st stored : Option (List Char))
    (exchange : ExchangeResult) (uinfo : UserInfoResult) (s : Store) : LoginOutcome :=
  if webStateMatches code st stored then handleLoginCode exchange uinfo s
  else ⟨s, none, none⟩

/-! ## Two concurrent `fetchToken` callers

`fetchToken` suspends at its `await storageAdapter.getItem` before the
expiry check, so two concurrent callers may both read the stored pair before
either refresh begins.  Each task is either not yet started, suspended at
the end of the storage read, or finished; a scheduler word interleaves
them over the shared store while counting issued token-exchange requests. -/

inductive TaskPhase
  | start
  | readDone (blobOpt : Option (List Char))
  | finished (result : Except JsErr (List Char))

structure ConcState where
  store : Store
  exchangeCount : Nat

def stepTask (net : RefreshOracle) (clientId : List Char) (now : Int) :
    TaskPhase → ConcState → TaskPhase × ConcState
  | .start, st => (.readDone (getItemWeb st.store tokenStorageKey), st)
  | .readDone blobOpt, st =>
      let o := fetchTokenAfterRead net clientId now blobOpt st.store
      (.finished o.result, ⟨o.store, st.exchangeCount + o.requests.length⟩)
  | .finished r, st => (.finished r, st)

structure TwoTasks where
  taskA : TaskPhase
  taskB : TaskPhase
  shared : ConcState

def schedStep (net : RefreshOracle) (clientId : List Char) (now : Int)
    (pickA : Bool) (w : TwoTasks) : TwoTasks :=
  if pickA then
    let r := stepTask net clientId now w.taskA w.shared
    ⟨r.1, w.taskB, r.2⟩
  else
    let r := stepTask net clientId now w.taskB w.shared
    ⟨w.taskA, r.1, r.2⟩

def runSched (net : RefreshOracle) (clientId : List Char) (now : Int) :
    List Bool → TwoTasks → TwoTasks
  | [], w => w
  | b :: rest, w => runSched net clientId now rest (schedStep net clientId now b w)

/-! ## `createSchema` (runtime schema validation, `src/unnamed/part_002`)

The input is a dynamic JS object, modelled as a `Json` value; `typeof x ===
'object'` together with the explicit `null` exclusion is modelled as the
`.obj` constructor (arrays, which would also satisfy `typeof`, are outside
this model).  Validation throws (`Except.error` with the message) at the
first offending table or field in `for...in` (insertion) order. -/

def validFieldTypes : List (List Char) :=
  [lc "string", lc "boolean", lc "number"]

def fieldTypeErrMsg (tableName fieldName : List Char) : List Char :=
  lc "Invalid schema for table '" ++ tableName ++ lc "', field '" ++ fieldName ++
  lc "': type must be one of \"string\", \"boolean\", \"number\"."

/-- Validate the fields map of one table; `some msg` is the first error. -/
def checkFields (tableName : List Char) :
    List (List Char × Json) → Option (List Char)
  | [] => none
  | (fieldName, f) :: rest =>
      match f with
      | .obj fm =>
          match lookupMember fm (lc "type") with
          | some (.str ty) =>
              if ty ∈ validFieldTypes then
                match lookupMember fm (lc "indexed") with
                | none => checkFields tableName rest
                | some (.bool _) => checkFields tableName rest
                | some _ => some (lc "Invalid schema for table '" ++ tableName ++
                    lc "', field '" ++ fieldName ++
                    lc "': optional 'indexed' property must be a boolean.")
              else some (fieldTypeErrMsg tableName fieldName)
          | _ => some (fieldTypeErrMsg tableName fieldName)
      | _ => some (lc "Invalid schema for table '" ++ tableName ++ lc "', field '" ++
          fieldName ++ lc "': is not an object.")

/-- Validate every table; `some msg` is the first error. -/
def checkTables : List (List Char × Json) → Option (List Char)
  | [] => none
  | (tableName, t) :: rest =>
      match t with
      | .obj tm =>
          match lookupMember tm (lc "fields") with
          | some (.obj fields) =>
              if fields.isEmpty then
                some (lc "Invalid schema for table '" ++ tableName ++
                  lc "': fields must be a non-empty object.")
              else
                match checkFields tableName fields with
                | some msg => some msg
                | none => checkTables rest
          | _ => some (lc "Invalid schema for table '" ++ tableName ++
              lc "': fields must be a non-empty object.")
      | _ => some (lc "Invalid schema: table '" ++ tableName ++ lc "' is not an object.")

/-- `createSchema`: the runtime validation of `src/unnamed/part_002`
lines 38-75; on success the schema is returned unchanged and no network
activity occurs anywhere in the function. -/
def createSchema (schema : Json) : Except (List Char) Json :=
  match getProp schema (lc "project_id") with
  | some (.str pid) =>
      if trimChars pid = [] then
        .error (lc "Invalid schema: project_id must be a non-empty string.")
      else
        match getProp schema (lc "version") with
        | some (.num _) =>
            match getProp schema (lc "tables") with
            | some (.obj tables) =>
                if tables.isEmpty then
                  .error (lc "Invalid schema: tables must be a non-empty object.")
                else
                  match checkTables tables with
                  | some msg => .error msg
                  | none => .ok schema
            | _ => .error (lc "Invalid schema: tables must be a non-empty object.")
        | _ => .error (lc "Invalid schema: version must be a number.")
  | _ => .error (lc "Invalid schema: project_id must be a non-empty string.")

/-! ## Query pagination

Modelled from the spec: the fluent query layer (`getAll().filter().order()
.limit().offset()`) is documented in the repository README and CHANGELOG
(v0.0.6) but its implementation is not among the source files; spec section
4.3 specifies that the chained calls populate one descriptor, that chaining
order is insignificant, and that `offset(n)` skips the first `n` results of
the fetched set before `limit(n)` caps the count. -/

structure QueryDescriptor where
  limitN : Option Nat
  offsetN : Option Nat
deriving DecidableEq

def baseQuery : QueryDescriptor := ⟨none, none⟩

def withLimit (q : QueryDescriptor) (n : Nat) : QueryDescriptor :=
  ⟨some n, q.offsetN⟩

def withOffset (q : QueryDescriptor) (n : Nat) : QueryDescriptor :=
  ⟨q.limitN, some n⟩

/-- Resolve the finalized descriptor against the fetched record set:
offset first, then limit. -/
def applyPagination {α : Type} (q : QueryDescriptor) (records : List α) : List α :=
  let afterOffset := match q.offsetN with
    | some n => records.drop n
    | none => records
  match q.limitN with
  | some n => afterOffset.take n
  | none => afterOffset

/-! ## Helper lemmas shared across the claim theorems -/

theorem refreshAccessToken_requests (net : RefreshOracle) (clientId : List Char)
    (rv : Option Json) (s : Store) :
    (refreshAccessToken net clientId rv s).requests =
      [⟨tokenEndpoint, refreshRequestBody rv clientId⟩] := by
  unfold refreshAccessToken
  cases net rv <;> rfl

theorem isTokenExpired_eq_of_decode (now : Int) (a : List Char) (payload pe : Json)
    (e : Int) (hjwt : decodeJWT a = some payload) (hpt : jsTruthy payload = true)
    (hexp : getProp payload (lc "exp") = some pe) (hpet : jsTruthy pe = true)
    (hnum : jsToNumber pe = some e) :
    isTokenExpired now a = decide (now ≥ e * 1000 - 5 * 60 * 1000) := by
  simp [isTokenExpired, hjwt, hpt, hexp, hpet, hnum]

theorem fetchTokenAfterRead_strAccess (net : RefreshOracle) (clientId : List Char)
    (now : Int) (blob : List Char) (s : Store) (parsed : Json) (a : List Char)
    (hne : blob ≠ []) (hparse : parseJson blob = some parsed)
    (hnn : isNullJson parsed = false)
    (hacc : getProp parsed (lc "accessToken") = some (.str a)) :
    fetchTokenAfterRead net clientId now (some blob) s =
      (if isTokenExpired now a = false then ⟨.ok a, s, []⟩
       else refreshAccessToken net clientId (getProp parsed (lc "refreshToken")) s) := by
  simp [fetchTokenAfterRead, hne, hparse, hnn, hacc]

theorem getItemWeb_signout_token (s : Store) :
    getItemWeb (signout s).1 tokenStorageKey = none := by
  unfold signout deleteItemWeb
  simp only [getItemWeb, storeRemove_comm _ tokenStorageKey userInfoStorageKey,
    storeGet_storeRemove_self]

theorem getItemWeb_signout_user (s : Store) :
    getItemWeb (signout s).1 userInfoStorageKey = none := by
  unfold signout deleteItemWeb
  simp only [getItemWeb, storeGet_storeRemove_self]

/-! ## Claim theorems -/

/-- Claim C3 counterexample: the token-exchange request body built by
`refreshAccessToken` carries the refresh token under the `code` key, so it
has no `refresh_token` field, and it has no `redirect_uri` field either —
refuting the claim that both are present. -/
theorem refresh_body_missing_fields_cex :
    lookupMember (refreshRequestBody (some (Json.str (lc "storedRefresh")))
      (lc "client0")) (lc "refresh_token") = none ∧
    lookupMember (refreshRequestBody (some (Json.str (lc "storedRefresh")))
      (lc "client0")) (lc "redirect_uri") = none :=
  ⟨rfl, rfl⟩

/-- Claim C3 (amended): every refresh exchange posts to the token endpoint a
JSON body whose members are exactly `grant_type: "refresh_token"`, the stored
refresh token under the `code` key (not `refresh_token`), and `client_id`;
no `redirect_uri` is sent. -/
theorem refresh_body_fields (rt clientId : List Char) (net : RefreshOracle)
    (rv : Option Json) (s : Store) :
    refreshRequestBody (some (Json.str rt)) clientId =
      [(lc "grant_type", Json.str (lc "refresh_token")), (lc "code", Json.str rt),
       (lc "client_id", Json.str clientId)] ∧
    (refreshAccessToken net clientId rv s).requests =
      [⟨tokenEndpoint, refreshRequestBody rv clientId⟩] ∧
    lookupMember (refreshRequestBody rv clientId) (lc "refresh_token") = none ∧
    lookupMember (refreshRequestBody rv clientId) (lc "redirect_uri") = none := by
  refine ⟨rfl, refreshAccessToken_requests net clientId rv s, ?_, ?_⟩ <;>
    cases rv <;> rfl

/-- Claim C6: after `signout()` neither secret is retrievable, a subsequent
`fetchToken` rejects with the no-tokens (unauthenticated) error without any
network request, the auth state is the SignedOut record, and running
`signout` again from that state yields the very same state. -/
theorem signout_clears_and_unauthenticates (s : Store) (net : RefreshOracle)
    (clientId : List Char) (now : Int) :
    getItemWeb (signout s).1 tokenStorageKey = none ∧
    getItemWeb (signout s).1 userInfoStorageKey = none ∧
    fetchToken net clientId now (signout s).1 =
      ⟨.error .noTokensFound, (signout s).1, []⟩ ∧
    (signout s).2 = signedOutState ∧
    signout (signout s).1 = signout s := by
  refine ⟨getItemWeb_signout_token s, getItemWeb_signout_user s, ?_, rfl, ?_⟩
  · unfold fetchToken
    rw [getItemWeb_signout_token s]
    rfl
  · unfold signout deleteItemWeb
    simp only [Prod.mk.injEq, and_true]
    rw [storeRemove_comm _ tokenStorageKey userInfoStorageKey, storeRemove_idem,
      storeRemove_comm _ userInfoStorageKey tokenStorageKey, storeRemove_idem]

/-- Claim C8 (spec-modelled): `limit(2)` and `offset(1)` over five ordered
records select exactly the records at indices 1 and 2, in either chaining
order, and the two chaining orders build the same descriptor. -/
theorem limit_offset_pagination {α : Type} (a b c d e : α) :
    applyPagination (withOffset (withLimit baseQuery 2) 1) [a, b, c, d, e] = [b, c] ∧
    applyPagination (withLimit (withOffset baseQuery 1) 2) [a, b, c, d, e] = [b, c] ∧
    (∀ (q : QueryDescriptor) (n m : Nat),
      withOffset (withLimit q n) m = withLimit (withOffset q m) n) :=
  ⟨rfl, rfl, fun _ _ _ => rfl⟩

/-- Claim C9 counterexample: storing the empty string (a Latin-1 value) on
the web adapter and reading it back yields `null`, not the empty string,
because `getItem` treats the stored empty string as absent. -/
theorem empty_value_storage_cex :
    getItemWeb (setItemWeb [] (lc "k") (lc "")) (lc "k") = none ∧
    getItemWeb (setItemWeb [] (lc "k") (lc "")) (lc "k") ≠ some (lc "") := by
  have h1 : getItemWeb (setItemWeb [] (lc "k") (lc "")) (lc "k") = none := rfl
  refine ⟨h1, ?_⟩
  rw [h1]
  simp

/-- Claim C9 (amended): for every *non-empty* Latin-1 value the web storage
adapter round-trips `setItem`/`getItem` through its base64 obfuscation, and
`getItem` yields `null` for a key that is absent or deleted. -/
theorem storage_roundtrip_nonempty (s : Store) (k v : List Char) (hne : v ≠ [])
    (hlatin : ∀ c ∈ v, c.toNat < 256) :
    getItemWeb (setItemWeb s k v) k = some v ∧
    (∀ (s2 : Store) (key : List Char), storeGet s2 key = none →
      getItemWeb s2 key = none) ∧
    (∀ (s2 : Store) (key : List Char),
      getItemWeb (deleteItemWeb s2 key) key = none) := by
  refine ⟨getItemWeb_setItemWeb_self s k v hne hlatin, ?_, ?_⟩
  · intro s2 key habs
    unfold getItemWeb
    rw [habs]
  · intro s2 key
    exact getItemWeb_deleteItemWeb_self s2 key

/-- Claim C9 witness: a concrete non-empty Latin-1 value round-trips. -/
theorem storage_roundtrip_nonempty_witness :
    getItemWeb (setItemWeb [] (lc "key0") (lc "hello")) (lc "key0") = some (lc "hello") :=
  (storage_roundtrip_nonempty [] (lc "key0") (lc "hello") (by decide) (by decide)).1

/-! ## Concrete demonstration values used by witnesses and counterexamples -/

/-- A JWT whose payload is `\x7b"exp":9999\x7d` (expiry at 9999 s). -/
def demoPayload : List Char := lc "\x7b\"exp\":9999\x7d"

def demoToken : List Char := lc "h." ++ btoaBytes (demoPayload.map Char.toNat) ++ lc ".s"

def demoBlob : List Char := stringifyPair demoToken (lc "refresh0")

def demoStore : Store := setItemWeb [] tokenStorageKey demoBlob

def demoNet : RefreshOracle := fun _ => .ok ⟨lc "newAccess", lc "newRefresh"⟩

/-- A JWT whose payload is `\x7b"exp":1\x7d` (expired long ago). -/
def expiredPayload : List Char := lc "\x7b\"exp\":1\x7d"

def expiredToken : List Char := lc "h." ++ btoaBytes (expiredPayload.map Char.toNat) ++ lc ".s"

def expiredBlob : List Char := stringifyPair expiredToken (lc "refresh0")

def expiredStore : Store := setItemWeb [] tokenStorageKey expiredBlob

/-- Claim C2: when the stored pair holds a decodable string access token with
a truthy numeric `exp`, `fetchToken` returns it unchanged with no network
request exactly when `exp` is more than five minutes in the future, and
otherwise runs one refresh exchange, returning the refreshed access token on
success. -/
theorem fetchToken_fastpath_refresh_split (net : RefreshOracle) (clientId : List Char)
    (now : Int) (s : Store) (blob : List Char) (parsed : Json) (a : List Char)
    (rv : Option Json) (payload pe : Json) (e : Int)
    (hget : getItemWeb s tokenStorageKey = some blob)
    (hne : blob ≠ [])
    (hparse : parseJson blob = some parsed)
    (hnn : isNullJson parsed = false)
    (hacc : getProp parsed (lc "accessToken") = some (Json.str a))
    (hrv : getProp parsed (lc "refreshToken") = rv)
    (hjwt : decodeJWT a = some payload)
    (hpt : jsTruthy payload = true)
    (hexp : getProp payload (lc "exp") = some pe)
    (hpet : jsTruthy pe = true)
    (hnum : jsToNumber pe = some e) :
    fetchToken net clientId now s =
      (if now ≥ e * 1000 - 5 * 60 * 1000
       then refreshAccessToken net clientId rv s
       else ⟨.ok a, s, []⟩) ∧
    (∀ t, net rv = .ok t →
      refreshAccessToken net clientId rv s =
        ⟨.ok t.access_token, storeTokens s t,
         [⟨tokenEndpoint, refreshRequestBody rv clientId⟩]⟩) := by
  constructor
  · unfold fetchToken
    rw [hget, fetchTokenAfterRead_strAccess net clientId now blob s parsed a hne hparse hnn hacc,
      isTokenExpired_eq_of_decode now a payload pe e hjwt hpt hexp hpet hnum, hrv]
    by_cases hc : now ≥ e * 1000 - 5 * 60 * 1000
    · have hd : decide (now ≥ e * 1000 - 5 * 60 * 1000) = true := by simpa using hc
      rw [hd, if_pos hc]
      simp
    · have hd : decide (now ≥ e * 1000 - 5 * 60 * 1000) = false := by simpa using hc
      rw [hd, if_neg hc]
      simp
  · intro t ht
    unfold refreshAccessToken
    rw [ht]

/-- Claim C2 witness: a concrete fresh token is returned unchanged with no
network request. -/
theorem fetchToken_fastpath_refresh_split_witness :
    fetchToken demoNet (lc "client0") 0 demoStore = ⟨.ok demoToken, demoStore, []⟩ := by
  have h := fetchToken_fastpath_refresh_split demoNet (lc "client0") 0 demoStore
    demoBlob (Json.obj [(lc "accessToken", Json.str demoToken),
      (lc "refreshToken", Json.str (lc "refresh0"))]) demoToken
    (some (Json.str (lc "refresh0"))) (Json.obj [(lc "exp", Json.num 9999)])
    (Json.num 9999) 9999 rfl (by decide) rfl rfl rfl rfl rfl rfl rfl rfl rfl
  rw [h.1]
  norm_num

/-- Claim C10: a stored access token that does not decode as a JWT, or whose
decoded payload has no `exp` member, always counts as expired, so `fetchToken`
never returns it directly and instead runs the refresh exchange. -/
theorem undecodable_token_always_expired (now : Int) (t : List Char)
    (h : decodeJWT t = none ∨ ∃ p, decodeJWT t = some p ∧ getProp p (lc "exp") = none) :
    isTokenExpired now t = true ∧
    (∀ (net : RefreshOracle) (clientId : List Char) (s : Store) (blob : List Char)
      (parsed : Json),
      getItemWeb s tokenStorageKey = some blob → blob ≠ [] →
      parseJson blob = some parsed → isNullJson parsed = false →
      getProp parsed (lc "accessToken") = some (Json.str t) →
      fetchToken net clientId now s =
        refreshAccessToken net clientId (getProp parsed (lc "refreshToken")) s) := by
  have hexpired : isTokenExpired now t = true := by
    rcases h with hnone | ⟨p, hsome, hnoexp⟩
    · simp [isTokenExpired, hnone]
    · by_cases hpt : jsTruthy p = true
      · simp [isTokenExpired, hsome, hpt, hnoexp]
      · simp [isTokenExpired, hsome, hpt]
  refine ⟨hexpired, ?_⟩
  intro net clientId s blob parsed hget hne hparse hnn hacc
  unfold fetchToken
  rw [hget, fetchTokenAfterRead_strAccess net clientId now blob s parsed t hne hparse hnn hacc,
    hexpired]
  simp

/-- Claim C10 witness: the non-JWT string `garbage` is treated as expired. -/
theorem undecodable_token_always_expired_witness :
    isTokenExpired 0 (lc "garbage") = true :=
  (undecodable_token_always_expired 0 (lc "garbage") (Or.inl rfl)).1

/-- Claim C4 counterexample: a web callback whose `state` parameter differs
from the stored per-attempt state is silently ignored — no error of any kind
is raised (refuting the claimed authentication error), no token is persisted
and no state change happens, even with oracles that would let the login
succeed. -/
theorem state_mismatch_silent_cex :
    webOauthCallback (some (lc "code0")) (some (lc "stateA")) (some (lc "stateB"))
      (.ok ⟨lc "A", lc "R"⟩) (.ok ⟨lc "u", lc "e", lc "n", lc "un"⟩) [] =
      ⟨[], none, none⟩ := rfl

/-- Claim C4 (amended): a state mismatch on the web callback leaves the
store untouched, sets no auth state and surfaces no error at all — the
callback is silently ignored rather than rejected with an authentication
error. -/
theorem state_mismatch_silently_ignored (code : List Char)
    (st stored : Option (List Char)) (exchange : ExchangeResult)
    (uinfo : UserInfoResult) (s : Store) (hmm : st ≠ stored) :
    webOauthCallback (some code) st stored exchange uinfo s = ⟨s, none, none⟩ := by
  unfold webOauthCallback webStateMatches
  have hd : decide (st = stored) = false := by simpa using hmm
  by_cases hc : code = []
  · simp [hc]
  · simp [hc, hd]

/-- Claim C4 witness: a concrete mismatching callback is ignored. -/
theorem state_mismatch_silently_ignored_witness :
    webOauthCallback (some (lc "c")) (some (lc "x")) (some (lc "y"))
      (.ok ⟨lc "A", lc "R"⟩) .httpError [] = ⟨[], none, none⟩ :=
  state_mismatch_silently_ignored (lc "c") (some (lc "x")) (some (lc "y"))
    (.ok ⟨lc "A", lc "R"⟩) .httpError [] (by decide)

/-- Claim C7 counterexample: on the web callback path, a failed user-info
fetch after a successful code exchange leaves the token pair persisted with
no user info stored and no auth state set — a partially persisted login the
claim rules out. -/
theorem web_userinfo_failure_partial_persist_cex :
    (webOauthCallback (some (lc "code0")) (some (lc "s")) (some (lc "s"))
        (.ok ⟨lc "A", lc "R"⟩) .httpError []) =
      ⟨storeTokens [] ⟨lc "A", lc "R"⟩, none, some .userInfoFailed⟩ ∧
    getItemWeb (webOauthCallback (some (lc "code0")) (some (lc "s")) (some (lc "s"))
        (.ok ⟨lc "A", lc "R"⟩) .httpError []).store tokenStorageKey =
      some (stringifyPair (lc "A") (lc "R")) ∧
    getItemWeb (webOauthCallback (some (lc "code0")) (some (lc "s")) (some (lc "s"))
        (.ok ⟨lc "A", lc "R"⟩) .httpError []).store userInfoStorageKey = none :=
  ⟨rfl, rfl, rfl⟩

/-- Claim C7 (amended): on the native login path every `handleLoginCode`
failure triggers `signout` — both secrets cleared, auth state reset to
SignedOut — and the error is rethrown; on the web callback path, however, a
user-info failure after the code exchange leaves the token pair persisted
with no user info and sets no auth state, surfacing only as an unhandled
rejection. -/
theorem login_failure_cleanup_split (code : List Char) (exchange : ExchangeResult)
    (uinfo : UserInfoResult) (s : Store) (err : JsErr) (hc : code ≠ [])
    (herr : (handleLoginCode exchange uinfo s).error = some err) :
    loginNative (.success code) exchange uinfo s =
      ⟨(signout (handleLoginCode exchange uinfo s).store).1, some signedOutState,
        some err⟩ ∧
    getItemWeb (loginNative (.success code) exchange uinfo s).store
      tokenStorageKey = none ∧
    getItemWeb (loginNative (.success code) exchange uinfo s).store
      userInfoStorageKey = none ∧
    (∀ (t : TokenResponse) (s2 : Store) (stored : Option (List Char)),
      webOauthCallback (some code) stored stored (.ok t) .httpError s2 =
        ⟨storeTokens s2 t, none, some .userInfoFailed⟩) := by
  have hnat : loginNative (.success code) exchange uinfo s =
      ⟨(signout (handleLoginCode exchange uinfo s).store).1, some signedOutState,
        some err⟩ := by
    simp only [loginNative]
    rw [herr]
    rfl
  refine ⟨hnat, ?_, ?_, ?_⟩
  · rw [hnat]
    exact getItemWeb_signout_token _
  · rw [hnat]
    exact getItemWeb_signout_user _
  · intro t s2 stored
    unfold webOauthCallback webStateMatches
    simp [hc]
    rfl

/-- Claim C7 witness: a concrete failed exchange on the native path signs
the user out. -/
theorem login_failure_cleanup_split_witness :
    loginNative (.success (lc "code0")) .httpError .httpError [] =
      ⟨(signout (handleLoginCode .httpError .httpError []).store).1,
        some signedOutState, some .exchangeFailed⟩ :=
  (login_failure_cleanup_split (lc "code0") .httpError .httpError [] .exchangeFailed
    (by decide) rfl).1

/-! ## Claim C5: `createSchema` versus the `json` field type -/

/-- The schema from the repository README (`src/unnamed/part_000`), whose
`tags` field is declared with `type: 'json'`. -/
def readmeSchemaJsonTags : Json :=
  .obj [(lc "project_id", .str (lc "YOUR_PROJECT_ID")), (lc "version", .num 1),
    (lc "tables", .obj [(lc "notes", .obj [(lc "type", .str (lc "collection")),
      (lc "fields", .obj [
        (lc "title", .obj [(lc "type", .str (lc "string")), (lc "indexed", .bool true)]),
        (lc "content", .obj [(lc "type", .str (lc "string"))]),
        (lc "createdAt", .obj [(lc "type", .str (lc "number")), (lc "indexed", .bool true)]),
        (lc "completed", .obj [(lc "type", .str (lc "boolean")), (lc "indexed", .bool true)]),
        (lc "priority", .obj [(lc "type", .str (lc "number")), (lc "indexed", .bool true)]),
        (lc "tags", .obj [(lc "type", .str (lc "json")), (lc "indexed", .bool true)])])])])]

/-- The same schema with the `tags` field declared as a `string`. -/
def readmeSchemaStrTags : Json :=
  .obj [(lc "project_id", .str (lc "YOUR_PROJECT_ID")), (lc "version", .num 1),
    (lc "tables", .obj [(lc "notes", .obj [(lc "type", .str (lc "collection")),
      (lc "fields", .obj [
        (lc "title", .obj [(lc "type", .str (lc "string")), (lc "indexed", .bool true)]),
        (lc "content", .obj [(lc "type", .str (lc "string"))]),
        (lc "createdAt", .obj [(lc "type", .str (lc "number")), (lc "indexed", .bool true)]),
        (lc "completed", .obj [(lc "type", .str (lc "boolean")), (lc "indexed", .bool true)]),
        (lc "priority", .obj [(lc "type", .str (lc "number")), (lc "indexed", .bool true)]),
        (lc "tags", .obj [(lc "type", .str (lc "string")), (lc "indexed", .bool true)])])])])]

/-- Claim C5: `createSchema` throws on the README's own example schema
because it does not accept the `json` field type — only `string`, `boolean`
and `number` — while the identical schema with `tags: string` is accepted
and returned unchanged with no network activity. -/
theorem createSchema_rejects_json_type :
    createSchema readmeSchemaJsonTags =
      .error (fieldTypeErrMsg (lc "notes") (lc "tags")) ∧
    createSchema readmeSchemaStrTags = .ok readmeSchemaStrTags :=
  ⟨rfl, rfl⟩

theorem fetchTokenAfterRead_expired (net : RefreshOracle) (clientId : List Char)
    (now : Int) (blob : List Char) (s : Store) (parsed : Json) (a : List Char)
    (hne : blob ≠ []) (hparse : parseJson blob = some parsed)
    (hnn : isNullJson parsed = false)
    (hacc : getProp parsed (lc "accessToken") = some (Json.str a))
    (hexp : isTokenExpired now a = true) :
    fetchTokenAfterRead net clientId now (some blob) s =
      refreshAccessToken net clientId (getProp parsed (lc "refreshToken")) s := by
  rw [fetchTokenAfterRead_strAccess net clientId now blob s parsed a hne hparse hnn hacc,
    hexp]
  simp

/-- Claim C1 counterexample: two concurrent `fetchToken` callers over a
stored expired token, interleaved so that both storage reads complete before
either refresh runs (the scheduler word `[A, B, A, B]`), issue **two**
token-exchange requests — not the single shared one the claim requires. -/
theorem concurrent_refresh_two_exchanges_cex :
    (runSched demoNet (lc "client0") 1000000 [true, false, true, false]
        ⟨.start, .start, ⟨expiredStore, 0⟩⟩).shared.exchangeCount = 2 ∧
    ¬ (runSched demoNet (lc "client0") 1000000 [true, false, true, false]
        ⟨.start, .start, ⟨expiredStore, 0⟩⟩).shared.exchangeCount = 1 := by
  have h2 : (runSched demoNet (lc "client0") 1000000 [true, false, true, false]
      ⟨.start, .start, ⟨expiredStore, 0⟩⟩).shared.exchangeCount = 2 := rfl
  refine ⟨h2, ?_⟩
  rw [h2]
  decide

/-- Claim C1 (amended): `fetchToken` has no shared pending-refresh handle, so
whenever two concurrent callers both pass their storage read while the stored
access token is expired, each of them runs its own token exchange: the
`[A, B, A, B]` interleaving finishes both callers having issued exactly two
exchange requests. -/
theorem concurrent_callers_each_refresh (net : RefreshOracle) (clientId : List Char)
    (now : Int) (s : Store) (blob : List Char) (parsed : Json) (a : List Char)
    (hget : getItemWeb s tokenStorageKey = some blob) (hne : blob ≠ [])
    (hparse : parseJson blob = some parsed) (hnn : isNullJson parsed = false)
    (hacc : getProp parsed (lc "accessToken") = some (Json.str a))
    (hexp : isTokenExpired now a = true) :
    (runSched net clientId now [true, false, true, false]
        ⟨.start, .start, ⟨s, 0⟩⟩).shared.exchangeCount = 2 ∧
    (∃ r1, (runSched net clientId now [true, false, true, false]
        ⟨.start, .start, ⟨s, 0⟩⟩).taskA = .finished r1) ∧
    (∃ r2, (runSched net clientId now [true, false, true, false]
        ⟨.start, .start, ⟨s, 0⟩⟩).taskB = .finished r2) := by
  have hfetch : ∀ s2 : Store, fetchTokenAfterRead net clientId now (some blob) s2 =
      refreshAccessToken net clientId (getProp parsed (lc "refreshToken")) s2 :=
    fun s2 => fetchTokenAfterRead_expired net clientId now blob s2 parsed a
      hne hparse hnn hacc hexp
  simp [runSched, schedStep, stepTask, hget, hfetch, refreshAccessToken_requests]

/-- Claim C1 witness: the amended statement at the concrete expired store. -/
theorem concurrent_callers_each_refresh_witness :
    (runSched demoNet (lc "client1") 1000000 [true, false, true, false]
        ⟨.start, .start, ⟨expiredStore, 0⟩⟩).shared.exchangeCount = 2 :=
  (concurrent_callers_each_refresh demoNet (lc "client1") 1000000 expiredStore
    expiredBlob (Json.obj [(lc "accessToken", Json.str expiredToken),
      (lc "refreshToken", Json.str (lc "refresh0"))]) expiredToken
    rfl (by decide) rfl rfl rfl rfl).1

end BasicExpo
